import Mathlib

/-
  Verification development for the playlist-persistence and playback-session
  manager implemented in `src/app/(tabs)/music.tsx` (the active, second
  component definition in that file, lines 779-1690).

  The TypeScript component is embedded shallowly:
  * `Song` mirrors the persisted track record `{id, name, uri, lyrics?}`.
  * `AppState` mirrors the React state variables `sound` (the owned engine
    handle, modelled by a numeric handle id), `playlist`, `currentSongIndex`,
    `isPlaying`, `duration`, `position`, `isLoading`.
  * `World` mirrors the durable collaborators: the AsyncStorage value under
    `STORAGE_KEY` (a raw serialized blob) and the managed music directory
    (`none` = absent, `some files` = present with the given contents).
  * `Env` packages the external capability functions: JSON parse/serialize of
    the stored blob and the `FileSystem.getInfoAsync(...).exists` probe.
  * Each operation is a pure function from state (plus injected outcomes of
    the fallible external calls) to the new state together with a list of
    emitted `Effect`s: engine directives, file deletions and `Alert.alert`
    calls.  Asynchronous engine acknowledgements (status callbacks) are their
    own events, delivered through `deliverStatus`.
-/

namespace MusicPlayer

/-- A track record as persisted by the app: `{ id, name, uri, lyrics? }`
(`interface Song`, music.tsx lines 795-800). -/
structure Song where
  id : Nat
  name : String
  uri : String
  lyrics : Option String
deriving DecidableEq, Repr

/-- The user-visible alerts the component raises via `Alert.alert`. -/
inductive AlertKind where
  | corrupted
  | playlistCleaned
  | saveFailed
  | successAdded (k : Nat)
  | playbackFailed
  | playbackErrorStatus
  | clearSuccess
  | clearFailed
  | noMusic
deriving DecidableEq, Repr

/-- Outward directives emitted by the operations: engine calls, file
deletions, scheduled auto-advance, and alerts. -/
inductive Effect where
  | engineStopUnload (h : Nat)
  | engineSeek (ms : Nat)
  | fileDelete (uri : String)
  | scheduleNextLoad (i : Nat)
  | alert (a : AlertKind)
deriving DecidableEq, Repr

/-- The React state variables of the component (music.tsx lines 806-812).
The owned `Audio.Sound` handle is modelled by a numeric handle id. -/
@[ext]
structure AppState where
  sound : Option Nat
  playlist : List Song
  currentSongIndex : Nat
  isPlaying : Bool
  duration : Nat
  position : Nat
  isLoading : Bool
deriving DecidableEq, Repr

/-- Durable collaborators: the AsyncStorage blob under `STORAGE_KEY` and the
managed music directory (`none` = directory absent). -/
structure World where
  store : Option String
  dir : Option (List String)
deriving DecidableEq, Repr

/-- External capability functions consumed by the component: `JSON.parse`
(partial, hence `Option`), `JSON.stringify`, and the
`FileSystem.getInfoAsync(uri).exists` probe. -/
structure Env where
  parse : String → Option (List Song)
  serialize : List Song → String
  existsFile : String → Bool

/-- Default song used only to give `List.getD` a default; every use is
guarded by an index-in-range check mirroring the source's guard. -/
def dSong : Song := ⟨0, "", "", none⟩

/-- `u.includes(pat)` of JavaScript, via `splitOn`: `pat` occurs in `u` iff
splitting on it yields more than one piece. -/
def containsSub (u pat : String) : Bool := (u.splitOn pat).length != 1

/-- The stale-location heuristic inside `loadPlaylist` (music.tsx line 906):
a uri containing `/cache/` or `DocumentPicker` is a legacy/transient path. -/
def staleUri (u : String) : Bool := containsSub u "/cache/" || containsSub u "DocumentPicker"

/-- The reconciliation loop of `loadPlaylist` (music.tsx lines 903-917),
parametrised over the two checks as in the spec's
`reconcile(playlist, existsCheck, isStaleLocation)`: each entry is skipped
(`continue`) when its location is stale, kept when its file exists, and
dropped otherwise, preserving the traversal order. -/
def reconcile (playlist : List Song) (existsCheck : String → Bool)
    (staleLoc : String → Bool) : List Song :=
  match playlist with
  | [] => []
  | song :: rest =>
    if staleLoc song.uri then reconcile rest existsCheck staleLoc
    else if existsCheck song.uri then song :: reconcile rest existsCheck staleLoc
    else reconcile rest existsCheck staleLoc

/-- The payload of an `AVPlaybackStatus` delivered by the engine, restricted
to the fields the component reads (music.tsx lines 1018-1039). -/
structure AVStatus where
  isLoaded : Bool
  durationMillis : Option Nat
  positionMillis : Option Nat
  isPlaying : Bool
  didJustFinish : Bool
  isLooping : Bool
  error : Option String
deriving DecidableEq, Repr

/-- `onPlaybackStatusUpdate` (music.tsx lines 1018-1039): drops the event when
the component is unmounted; otherwise, for a loaded status, unconditionally
overwrites duration/position/playing (JS `|| 0` becomes `Option.getD 0`) and,
on `didJustFinish && !isLooping`, schedules a load of
`(currentSongIndex + 1) % playlist.length` (the `setTimeout` body); for an
errored unloaded status clears `isPlaying` and alerts. -/
def onPlaybackStatusUpdate (mounted : Bool) (s : AppState) (st : AVStatus) :
    AppState × List Effect :=
  if !mounted then (s, [])
  else if st.isLoaded then
    let s1 := { s with duration := st.durationMillis.getD 0,
                       position := st.positionMillis.getD 0,
                       isPlaying := st.isPlaying }
    if st.didJustFinish && !st.isLooping then
      (s1, [Effect.scheduleNextLoad ((s.currentSongIndex + 1) % s.playlist.length)])
    else (s1, [])
  else
    match st.error with
    | some e =>
      if e = "" then (s, [])
      else ({ s with isPlaying := false }, [Effect.alert AlertKind.playbackErrorStatus])
    | none => (s, [])

/-- Delivery of a status event produced by engine handle `fromHandle`.  Every
`Audio.Sound.createAsync` call registers the same `onPlaybackStatusUpdate`
closure, which receives no handle identity and performs no generation check,
so delivery simply invokes the handler regardless of which handle (current or
stale) emitted the event. -/
def deliverStatus (mounted : Bool) (s : AppState) (fromHandle : Nat) (st : AVStatus) :
    AppState × List Effect :=
  onPlaybackStatusUpdate mounted s st

/-- Injected outcome of the fallible engine acquisition inside
`loadAndPlaySong`: `none` models `Audio.Sound.createAsync` throwing
(`LoadFault`), `some h` a successfully acquired handle `h`. -/
structure LoadFx where
  acquired : Option Nat
deriving DecidableEq, Repr

/-- `loadAndPlaySong` (music.tsx lines 1041-1097).  Guard: no-op unless
`0 <= index < playlist.length`.  Then: `setIsLoading(true)`; if a sound is
held, stop+unload it (errors swallowed) and `setSound(null)`; probe the file;
a missing file or a failed `createAsync` lands in the catch block (alert) and
the finally block (`setIsLoading(false)` only when still mounted).  On success
while mounted: install the new handle, set the index, start playing; while
unmounted: unload the fresh handle and leave `isLoading` stuck true. -/
def loadAndPlaySong (env : Env) (mounted : Bool) (fx : LoadFx) (s : AppState)
    (index : Nat) : AppState × List Effect :=
  if index < s.playlist.length then
    let relEff : List Effect :=
      match s.sound with
      | some h => [Effect.engineStopUnload h]
      | none => []
    let s1 := { s with isLoading := true, sound := none }
    let songUri := (s.playlist.getD index dSong).uri
    if env.existsFile songUri then
      match fx.acquired with
      | some h =>
        if mounted then
          ({ s1 with sound := some h, currentSongIndex := index,
                     isPlaying := true, isLoading := false }, relEff)
        else
          (s1, relEff ++ [Effect.engineStopUnload h])
      | none =>
        ({ s1 with isLoading := !mounted }, relEff ++ [Effect.alert AlertKind.playbackFailed])
    else
      ({ s1 with isLoading := !mounted }, relEff ++ [Effect.alert AlertKind.playbackFailed])
  else (s, [])

/-- `seekToPosition` (music.tsx lines 1142-1150): issues a seek directive to
the engine only when a handle is held; engine seek failures are logged only,
and the `position` state field itself is updated by the ensuing status
callback, not synchronously here. -/
def seekToPosition (s : AppState) (value : Nat) : AppState × List Effect :=
  match s.sound with
  | some _ => (s, [Effect.engineSeek value])
  | none => (s, [])

/-- `playNext` (music.tsx lines 1125-1129): no-op on an empty playlist,
otherwise a load of `(currentSongIndex + 1) % playlist.length`. -/
def playNext (env : Env) (mounted : Bool) (fx : LoadFx) (s : AppState) :
    AppState × List Effect :=
  if s.playlist.length = 0 then (s, [])
  else loadAndPlaySong env mounted fx s ((s.currentSongIndex + 1) % s.playlist.length)

/-- `playPrevious` (music.tsx lines 1131-1140): no-op on an empty playlist;
restart (seek to 0) when the position exceeds 3000 ms; otherwise a load of
the previous index with wraparound. -/
def playPrevious (env : Env) (mounted : Bool) (fx : LoadFx) (s : AppState) :
    AppState × List Effect :=
  if s.playlist.length = 0 then (s, [])
  else if 3000 < s.position then seekToPosition s 0
  else
    loadAndPlaySong env mounted fx s
      (if s.currentSongIndex = 0 then s.playlist.length - 1 else s.currentSongIndex - 1)

/-- `savePlaylist` (music.tsx lines 940-947): serializes and writes the full
list under `STORAGE_KEY`; a failing write only raises an alert. -/
def savePlaylist (env : Env) (saveFails : Bool) (w : World) (pl : List Song) :
    World × List Effect :=
  if saveFails then (w, [Effect.alert AlertKind.saveFailed])
  else ({ w with store := some (env.serialize pl) }, [])

/-- `loadPlaylist` (music.tsx lines 896-938): reads the stored blob; the
`if (saved && isMounted.current)` guard skips a falsy (empty-string) blob
entirely; when the blob parses, reconciles the entries against the
filesystem and the stale-location heuristic, installs and re-persists the
cleaned list (alerting when a non-empty stored list was cleaned to nothing);
when parsing (or the re-save) throws, the catch block removes the stored key
and alerts that the playlist was corrupted and reset. -/
def loadPlaylist (env : Env) (mounted : Bool) (saveFails : Bool) (s : AppState)
    (w : World) : AppState × World × List Effect :=
  match w.store with
  | none => (s, w, [])
  | some saved =>
    if saved = "" ∨ !mounted then (s, w, [])
    else
      match env.parse saved with
      | none => (s, { w with store := none }, [Effect.alert AlertKind.corrupted])
      | some parsedPlaylist =>
        let validSongs := reconcile parsedPlaylist env.existsFile staleUri
        let s1 := { s with playlist := validSongs }
        if saveFails then (s1, { w with store := none }, [Effect.alert AlertKind.corrupted])
        else if validSongs.length = 0 ∧ 0 < parsedPlaylist.length then
          (s1, { w with store := some (env.serialize validSongs) },
            [Effect.alert AlertKind.playlistCleaned])
        else (s1, { w with store := some (env.serialize validSongs) }, [])

/-- A file chosen in the picker dialog: `(sourceLocation, suggestedName)`. -/
structure Asset where
  uri : String
  name : String
deriving DecidableEq, Repr

/-- `FileSystem.cacheDirectory` of the host platform — an external value,
fixed to a representative concrete path for this model. -/
def cacheDirectory : String := "file:///data/user/0/com.app/cache/"

/-- `MUSIC_DIR` (music.tsx line 781). -/
def MUSIC_DIR : String := cacheDirectory ++ "music/"

/-- The display-name derivation `asset.name.replace(/\.[^/.]+$/, '')`
(music.tsx line 977): strip a final `.ext` segment that is non-empty and
contains neither `/` nor a further dot. -/
def stripExt (n : String) : String :=
  let parts := n.splitOn "."
  if 2 ≤ parts.length then
    let l := parts.getLastD ""
    if l ≠ "" ∧ ¬ (l.contains '/') then String.intercalate "." parts.dropLast else n
  else n

/-- The full name derivation including the `|| 'Unknown Song'` fallback. -/
def songDisplayName (n : String) : String :=
  let base := stripExt n
  if base = "" then "Unknown Song" else base

/-- The song record built for the i-th picked asset (music.tsx lines
966-979): id `Date.now() + i`, storage uri `MUSIC_DIR + now + _ + i + _ +
name`, display name with extension stripped. -/
def mkSong (now i : Nat) (asset : Asset) : Song :=
  { id := now + i,
    name := songDisplayName asset.name,
    uri := MUSIC_DIR ++ toString now ++ "_" ++ toString i ++ "_" ++ asset.name,
    lyrics := none }

/-- The copy loop of `pickMusicFiles` (music.tsx lines 964-983): each asset
whose copy succeeds contributes its song record in pick order; a failed copy
is logged and skipped without aborting the rest of the batch.  `copyOk i`
injects the outcome of the i-th `FileSystem.copyAsync`. -/
def importLoop (now : Nat) (copyOk : Nat → Bool) (assets : List Asset) (i : Nat) :
    List Song :=
  match assets with
  | [] => []
  | asset :: rest =>
    if copyOk i then mkSong now i asset :: importLoop now copyOk rest (i + 1)
    else importLoop now copyOk rest (i + 1)

/-- `pickMusicFiles` (music.tsx lines 949-1000): `picked = none` models a
cancelled dialog.  Only when at least one copy succeeded are the catalog
extended, the list persisted and the success count alerted. -/
def pickMusicFiles (env : Env) (now : Nat) (copyOk : Nat → Bool)
    (picked : Option (List Asset)) (saveFails : Bool) (s : AppState) (w : World) :
    AppState × World × List Effect :=
  match picked with
  | none => (s, w, [])
  | some assets =>
    if 0 < assets.length then
      let newSongs := importLoop now copyOk assets 0
      if 0 < newSongs.length then
        let updatedPlaylist := s.playlist ++ newSongs
        let sw := savePlaylist env saveFails w updatedPlaylist
        ({ s with playlist := updatedPlaylist }, sw.1,
          sw.2 ++ [Effect.alert (AlertKind.successAdded newSongs.length)])
      else (s, w, [])
    else (s, w, [])

/-- `removeSong` (music.tsx lines 1191-1231), confirmed branch (the
confirmation prompt is a boundary concern).  Removes the entry from the
catalog, persists, deletes the file (best effort); only when the removed
entry sat at the current index AND a sound handle is live does it release the
handle and — only when the shrunk playlist is non-empty — clamp the index to
`min(previousIndex, newLength - 1)`.  `stopFails` injects the un-caught
`sound.stopAsync()` throwing, which skips the remaining updates. -/
def removeSong (env : Env) (id : Nat) (saveFails stopFails : Bool) (s : AppState)
    (w : World) : AppState × World × List Effect :=
  let songToRemove := s.playlist.find? fun song => song.id == id
  let updatedPlaylist := s.playlist.filter fun song => song.id != id
  let sw := savePlaylist env saveFails w updatedPlaylist
  let delEff : List Effect :=
    match songToRemove with
    | some song => [Effect.fileDelete song.uri]
    | none => []
  let s1 := { s with playlist := updatedPlaylist }
  match s.playlist.findIdx? (fun song => song.id == id), s.sound with
  | some ri, some h =>
    if ri = s.currentSongIndex then
      if stopFails then (s1, sw.1, sw.2 ++ delEff ++ [Effect.engineStopUnload h])
      else if 0 < updatedPlaylist.length then
        ({ s1 with sound := none, isPlaying := false,
                   currentSongIndex := min s.currentSongIndex (updatedPlaylist.length - 1) },
          sw.1, sw.2 ++ delEff ++ [Effect.engineStopUnload h])
      else
        ({ s1 with sound := none, isPlaying := false }, sw.1,
          sw.2 ++ delEff ++ [Effect.engineStopUnload h])
    else (s1, sw.1, sw.2 ++ delEff)
  | _, _ => (s1, sw.1, sw.2 ++ delEff)

/-- Injected outcomes of the fallible steps of `clearPlaylist`'s single
try-block. -/
structure ClearFx where
  releaseFails : Bool
  deleteFails : Bool
  mkdirFails : Bool
  removeKeyFails : Bool
deriving DecidableEq, Repr

/-- Catalog-reset tail of `clearPlaylist` (music.tsx lines 1175-1180): the
synchronous state resets always run; a throwing `AsyncStorage.removeItem`
lands in the shared catch block after them. -/
def clearCatalogStep (fx : ClearFx) (s : AppState) (w : World) (eff : List Effect) :
    AppState × World × List Effect :=
  let s1 := { s with playlist := [], currentSongIndex := 0, isPlaying := false }
  if fx.removeKeyFails then (s1, w, eff ++ [Effect.alert AlertKind.clearFailed])
  else (s1, { w with store := none }, eff ++ [Effect.alert AlertKind.clearSuccess])

/-- Directory-clear middle of `clearPlaylist` (music.tsx lines 1169-1173):
delete + recreate run only when the directory exists; a throw aborts the
whole sequence into the catch block. -/
def clearDirStep (fx : ClearFx) (s : AppState) (w : World) (eff : List Effect) :
    AppState × World × List Effect :=
  match w.dir with
  | some _ =>
    if fx.deleteFails then (s, w, eff ++ [Effect.alert AlertKind.clearFailed])
    else if fx.mkdirFails then
      (s, { w with dir := none }, eff ++ [Effect.alert AlertKind.clearFailed])
    else clearCatalogStep fx s { w with dir := some [] } eff
  | none => clearCatalogStep fx s w eff

/-- `clearPlaylist` (music.tsx lines 1152-1189), confirmed branch: one
try-block sequencing handle release, directory delete+recreate and catalog
reset; any throw jumps to the catch (error alert), skipping the remaining
steps. -/
def clearPlaylist (fx : ClearFx) (s : AppState) (w : World) :
    AppState × World × List Effect :=
  match s.sound with
  | some h =>
    if fx.releaseFails then
      (s, w, [Effect.engineStopUnload h, Effect.alert AlertKind.clearFailed])
    else clearDirStep fx { s with sound := none } w [Effect.engineStopUnload h]
  | none => clearDirStep fx s w []

/-- Concrete environment for closed theorems: nothing parses, everything
serializes to a fixed blob, every file exists. -/
def envT : Env := { parse := fun _ => none, serialize := fun _ => "[]", existsFile := fun _ => true }

/-- Concrete environment in which no backing file exists. -/
def envNoFile : Env := { parse := fun _ => none, serialize := fun _ => "[]", existsFile := fun _ => false }

/-- Fixture for the stale-callback counterexample: mounted session currently
owning engine handle 2. -/
def s3 : AppState :=
  { sound := some 2, playlist := [], currentSongIndex := 0, isPlaying := false,
    duration := 0, position := 0, isLoading := false }

/-- A loaded status event (duration 999 ms) as emitted by a stale handle. -/
def st3 : AVStatus :=
  { isLoaded := true, durationMillis := some 999, positionMillis := some 50,
    isPlaying := true, didJustFinish := false, isLooping := false, error := none }

/-- Fixture for the failed-load counterexample: an active playing session
holding handle 5, with one track whose backing file is absent. -/
def s4 : AppState :=
  { sound := some 5, playlist := [⟨1, "a", "file:///docs/music/a", none⟩],
    currentSongIndex := 0, isPlaying := true, duration := 7, position := 9,
    isLoading := false }

/-- Fixture for the Previous counterexample: non-empty playlist, no engine
handle, position past the 3000 ms restart threshold. -/
def s5 : AppState :=
  { sound := none, playlist := [⟨1, "a", "file:///docs/music/a", none⟩],
    currentSongIndex := 0, isPlaying := false, duration := 9000, position := 5000,
    isLoading := false }

/-- The empty startup state (all `useState` initial values). -/
def sEmpty : AppState :=
  { sound := none, playlist := [], currentSongIndex := 0, isPlaying := false,
    duration := 0, position := 0, isLoading := false }

/-- An empty world: no stored blob, no managed directory yet. -/
def wEmpty : World := { store := none, dir := none }

/-- Environment whose parser accepts exactly the blob of the empty list. -/
def env9 : Env :=
  { parse := fun bl => if bl = "[]" then some [] else none,
    serialize := fun _ => "[]", existsFile := fun _ => true }

/-- Fixture for the remove-song counterexample: two tracks, the second one
current and playing on handle 7. -/
def s1rm : AppState :=
  { sound := some 7,
    playlist := [⟨1, "a", "file:///docs/music/a", none⟩,
                 ⟨2, "b", "file:///docs/music/b", none⟩],
    currentSongIndex := 1, isPlaying := true, duration := 0, position := 0,
    isLoading := false }

/-- Fixture for the clear-playlist counterexample: one track playing on
handle 1. -/
def sClear : AppState :=
  { sound := some 1, playlist := [⟨1, "a", "file:///docs/music/a", none⟩],
    currentSongIndex := 0, isPlaying := true, duration := 0, position := 0,
    isLoading := false }

/-- Fixture for the Next/Previous cycling witness: three tracks, index 0. -/
def s7 : AppState :=
  { sound := none,
    playlist := [⟨1, "a", "file:///docs/music/a", none⟩,
                 ⟨2, "b", "file:///docs/music/b", none⟩,
                 ⟨3, "c", "file:///docs/music/c", none⟩],
    currentSongIndex := 0, isPlaying := false, duration := 0, position := 0,
    isLoading := false }

theorem reconcile_eq_filter (P : List Song) (ex st : String → Bool) :
    reconcile P ex st = P.filter fun s => !(st s.uri) && ex s.uri := by
  induction P with
  | nil => rfl
  | cons song rest ih =>
    simp only [reconcile, List.filter_cons]
    cases hst : st song.uri with
    | true => simpa [hst] using ih
    | false =>
      cases hex : ex song.uri with
      | true => simpa [hst, hex] using ih
      | false => simpa [hst, hex] using ih

/-- C6: reconciliation is idempotent and order-preserving: for every playlist
and every pair of predicates it returns the ordered subsequence of entries
surviving both checks, reconciling twice equals reconciling once, and an
already-clean playlist is returned unchanged. -/
theorem reconcile_idempotent_order_preserving (P : List Song) (ex st : String → Bool) :
    reconcile (reconcile P ex st) ex st = reconcile P ex st ∧
    reconcile P ex st = (P.filter fun s => !(st s.uri) && ex s.uri) ∧
    List.Sublist (reconcile P ex st) P ∧
    ((∀ s ∈ P, st s.uri = false ∧ ex s.uri = true) → reconcile P ex st = P) := by
  refine ⟨?_, reconcile_eq_filter P ex st, ?_, ?_⟩
  · rw [reconcile_eq_filter, reconcile_eq_filter, List.filter_filter]
    apply List.filter_congr
    intro a _
    cases st a.uri <;> cases ex a.uri <;> rfl
  · rw [reconcile_eq_filter]
    exact List.filter_sublist P
  · intro hclean
    rw [reconcile_eq_filter]
    apply List.filter_eq_self.mpr
    intro a ha
    rcases hclean a ha with ⟨h1, h2⟩
    simp [h1, h2]

theorem reconcile_idempotent_order_preserving_witness :
    reconcile (reconcile [(⟨1, "a", "file:///docs/music/a", none⟩ : Song)] (fun _ => true) (fun _ => false)) (fun _ => true) (fun _ => false) =
      reconcile [(⟨1, "a", "file:///docs/music/a", none⟩ : Song)] (fun _ => true) (fun _ => false) ∧
    reconcile [(⟨1, "a", "file:///docs/music/a", none⟩ : Song)] (fun _ => true) (fun _ => false) =
      [(⟨1, "a", "file:///docs/music/a", none⟩ : Song)] := by
  have h := reconcile_idempotent_order_preserving
    [(⟨1, "a", "file:///docs/music/a", none⟩ : Song)] (fun _ => true) (fun _ => false)
  exact ⟨h.1, h.2.2.2 (by intro s _; exact ⟨rfl, rfl⟩)⟩

/-- C3 counterexample: with the component mounted and handle 2 currently
owned, a status event coming from the stale handle 1 still overwrites the
duration and the playing flag and changes the visible state; the handler
gates only on the mounted flag and never on handle identity, so the claim
that callbacks from a non-current handle never mutate the session state is
false on the code. -/
theorem staleCallback_counterexample :
    s3.sound = some 2 ∧
    (deliverStatus true s3 1 st3).1.duration = 999 ∧
    (deliverStatus true s3 1 st3).1.isPlaying = true ∧
    (deliverStatus true s3 1 st3).1 ≠ s3 := by decide

/-- C3 amended: the only gate on a status callback is the mounted flag — an
unmounted delivery never mutates state, while a mounted delivery is entirely
independent of which handle produced the event, so a stale-handle callback
mutates duration/position/playing exactly like a current-handle one. -/
theorem statusUpdate_mounted_gate (s : AppState) (g g2 : Nat) (st : AVStatus) :
    deliverStatus false s g st = (s, []) ∧
    deliverStatus true s g st = deliverStatus true s g2 st :=
  ⟨rfl, rfl⟩

/-- C4 counterexample: a failed load (backing file absent) does report the
error and does not advance the index, but it does not return the session to
the state preceding the attempt: the previously held handle 5 has already
been released and is not restored. -/
theorem loadFailure_restore_counterexample :
    (loadAndPlaySong envNoFile true ⟨some 9⟩ s4 0).1.currentSongIndex = s4.currentSongIndex ∧
    (loadAndPlaySong envNoFile true ⟨some 9⟩ s4 0).1.sound = none ∧
    s4.sound = some 5 ∧
    (loadAndPlaySong envNoFile true ⟨some 9⟩ s4 0).1 ≠ s4 := by decide

/-- C4 amended: for every valid index, when the backing file is absent or the
engine fails to acquire a handle, `loadAndPlaySong` aborts, reports a
playback error, leaves `currentSongIndex`, `isPlaying`, `duration` and
`position` at their prior values and clears `isLoading`; however any
previously held handle has been released (stop+unload directive emitted,
`sound = none`) rather than the session being restored to its pre-attempt
state. -/
theorem loadFailure_characterization (env : Env) (fx : LoadFx) (s : AppState) (index : Nat)
    (hidx : index < s.playlist.length)
    (hfail : env.existsFile (s.playlist.getD index dSong).uri = false ∨ fx.acquired = none) :
    loadAndPlaySong env true fx s index =
      ({ s with sound := none, isLoading := false },
        (match s.sound with
         | some h => [Effect.engineStopUnload h]
         | none => []) ++ [Effect.alert AlertKind.playbackFailed]) := by
  obtain ⟨snd, pl, idx, ply, dur, pos, ld⟩ := s
  have hidx2 : index < pl.length := hidx
  rcases hfail with hf | ha
  · rw [List.getD_eq_getElem pl dSong hidx2] at hf
    simp [loadAndPlaySong, hidx2, hf]
  · cases hex : env.existsFile (pl[index]).uri with
    | true => simp [loadAndPlaySong, hidx2, hex, ha]
    | false => simp [loadAndPlaySong, hidx2, hex]

theorem loadFailure_characterization_witness :
    loadAndPlaySong envNoFile true ⟨some 9⟩ s4 0 =
      ({ s4 with sound := none, isLoading := false },
        (match s4.sound with
         | some h => [Effect.engineStopUnload h]
         | none => []) ++ [Effect.alert AlertKind.playbackFailed]) :=
  loadFailure_characterization envNoFile ⟨some 9⟩ s4 0 (by decide) (Or.inl (by decide))

theorem loadAndPlaySong_success (env : Env) (h : Nat) (s : AppState) (index : Nat)
    (hidx : index < s.playlist.length)
    (hex : env.existsFile (s.playlist.getD index dSong).uri = true) :
    loadAndPlaySong env true ⟨some h⟩ s index =
      ({ s with sound := some h, currentSongIndex := index,
                isPlaying := true, isLoading := false },
        match s.sound with
        | some h0 => [Effect.engineStopUnload h0]
        | none => []) := by
  obtain ⟨snd, pl, idx, ply, dur, pos, ld⟩ := s
  have hidx2 : index < pl.length := hidx
  rw [List.getD_eq_getElem pl dSong hidx2] at hex
  simp [loadAndPlaySong, hidx2, hex]

theorem playNext_step (env : Env) (h : Nat) (s : AppState)
    (hne : s.playlist ≠ [])
    (hex : ∀ song ∈ s.playlist, env.existsFile song.uri = true) :
    (playNext env true ⟨some h⟩ s).1 =
      { s with sound := some h,
               currentSongIndex := (s.currentSongIndex + 1) % s.playlist.length,
               isPlaying := true, isLoading := false } := by
  have hn : 0 < s.playlist.length := List.length_pos.mpr hne
  have hidx : (s.currentSongIndex + 1) % s.playlist.length < s.playlist.length :=
    Nat.mod_lt _ hn
  have hmem : s.playlist.getD ((s.currentSongIndex + 1) % s.playlist.length) dSong ∈ s.playlist := by
    rw [List.getD_eq_getElem _ dSong hidx]
    exact List.getElem_mem hidx
  rw [playNext, if_neg (Nat.pos_iff_ne_zero.mp hn)]
  rw [loadAndPlaySong_success env h s _ hidx (hex _ hmem)]

theorem playPrevious_step (env : Env) (h : Nat) (s : AppState)
    (hne : s.playlist ≠ [])
    (hp : s.position ≤ 3000)
    (hi : s.currentSongIndex < s.playlist.length)
    (hex : ∀ song ∈ s.playlist, env.existsFile song.uri = true) :
    (playPrevious env true ⟨some h⟩ s).1 =
      { s with sound := some h,
               currentSongIndex :=
                 if s.currentSongIndex = 0 then s.playlist.length - 1
                 else s.currentSongIndex - 1,
               isPlaying := true, isLoading := false } := by
  have hn : 0 < s.playlist.length := List.length_pos.mpr hne
  have hidx : (if s.currentSongIndex = 0 then s.playlist.length - 1
               else s.currentSongIndex - 1) < s.playlist.length := by
    split <;> omega
  have hmem : s.playlist.getD (if s.currentSongIndex = 0 then s.playlist.length - 1
      else s.currentSongIndex - 1) dSong ∈ s.playlist := by
    rw [List.getD_eq_getElem _ dSong hidx]
    exact List.getElem_mem hidx
  rw [playPrevious, if_neg (Nat.pos_iff_ne_zero.mp hn), if_neg (by omega)]
  rw [loadAndPlaySong_success env h s _ hidx (hex _ hmem)]

theorem prevIdx_eq_mod (n i : Nat) (hn : 0 < n) (hi : i < n) :
    (if i = 0 then n - 1 else i - 1) = (i + n - 1) % n := by
  by_cases h0 : i = 0
  · subst h0
    rw [if_pos rfl, Nat.zero_add, Nat.mod_eq_of_lt (by omega)]
  · rw [if_neg h0]
    have h2 : i + n - 1 = (i - 1) + n := by omega
    rw [h2, Nat.add_mod_right, Nat.mod_eq_of_lt (by omega)]

theorem playNext_iterate (env : Env) (h : Nat) (s : AppState)
    (hne : s.playlist ≠ [])
    (hex : ∀ song ∈ s.playlist, env.existsFile song.uri = true) (k : Nat) :
    (fun st => (playNext env true ⟨some h⟩ st).1)^[k + 1] s =
      { s with sound := some h,
               currentSongIndex := (s.currentSongIndex + (k + 1)) % s.playlist.length,
               isPlaying := true, isLoading := false } := by
  induction k with
  | zero =>
    rw [Function.iterate_one]
    exact playNext_step env h s hne hex
  | succ k ih =>
    rw [Function.iterate_succ_apply', ih,
      playNext_step env h
        { s with sound := some h,
                 currentSongIndex := (s.currentSongIndex + (k + 1)) % s.playlist.length,
                 isPlaying := true, isLoading := false } hne hex]
    refine AppState.ext rfl rfl ?_ rfl rfl rfl rfl
    show ((s.currentSongIndex + (k + 1)) % s.playlist.length + 1) % s.playlist.length
      = (s.currentSongIndex + (k + 1 + 1)) % s.playlist.length
    rw [Nat.mod_add_mod]
    congr 1

theorem playPrevious_iterate (env : Env) (h : Nat) (s : AppState)
    (hne : s.playlist ≠ [])
    (hp : s.position ≤ 3000)
    (hi : s.currentSongIndex < s.playlist.length)
    (hex : ∀ song ∈ s.playlist, env.existsFile song.uri = true) (k : Nat) :
    (fun st => (playPrevious env true ⟨some h⟩ st).1)^[k + 1] s =
      { s with sound := some h,
               currentSongIndex :=
                 (s.currentSongIndex + (k + 1) * (s.playlist.length - 1)) % s.playlist.length,
               isPlaying := true, isLoading := false } := by
  have hn : 0 < s.playlist.length := List.length_pos.mpr hne
  induction k with
  | zero =>
    rw [Function.iterate_one, playPrevious_step env h s hne hp hi hex]
    refine AppState.ext rfl rfl ?_ rfl rfl rfl rfl
    show (if s.currentSongIndex = 0 then s.playlist.length - 1 else s.currentSongIndex - 1)
      = (s.currentSongIndex + (0 + 1) * (s.playlist.length - 1)) % s.playlist.length
    rw [prevIdx_eq_mod s.playlist.length s.currentSongIndex hn hi]
    congr 1
    omega
  | succ k ih =>
    rw [Function.iterate_succ_apply', ih,
      playPrevious_step env h
        { s with sound := some h,
                 currentSongIndex :=
                   (s.currentSongIndex + (k + 1) * (s.playlist.length - 1)) % s.playlist.length,
                 isPlaying := true, isLoading := false } hne hp (Nat.mod_lt _ hn) hex]
    refine AppState.ext rfl rfl ?_ rfl rfl rfl rfl
    show (if (s.currentSongIndex + (k + 1) * (s.playlist.length - 1)) % s.playlist.length = 0
          then s.playlist.length - 1
          else (s.currentSongIndex + (k + 1) * (s.playlist.length - 1)) % s.playlist.length - 1)
      = (s.currentSongIndex + (k + 1 + 1) * (s.playlist.length - 1)) % s.playlist.length
    rw [prevIdx_eq_mod s.playlist.length _ hn (Nat.mod_lt _ hn)]
    have h3 : (s.currentSongIndex + (k + 1) * (s.playlist.length - 1)) % s.playlist.length
          + s.playlist.length - 1 =
        (s.currentSongIndex + (k + 1) * (s.playlist.length - 1)) % s.playlist.length
          + (s.playlist.length - 1) := by omega
    rw [h3, Nat.mod_add_mod]
    congr 1
    have h4 : (k + 1 + 1) * (s.playlist.length - 1) =
        (k + 1) * (s.playlist.length - 1) + (s.playlist.length - 1) := by
      rw [Nat.succ_mul]
    rw [h4, ← Nat.add_assoc]

/-- C5 counterexample: with a non-empty playlist, no live engine handle and
position 5000 ms (past the 3000 ms threshold), `playPrevious` leaves the
state entirely unchanged and issues no seek directive: the position is not
reset to 0, refuting the claim as universally stated. -/
theorem playPrevious_counterexample :
    s5.playlist ≠ [] ∧ 3000 < s5.position ∧
    playPrevious envT true ⟨some 3⟩ s5 = (s5, []) ∧
    (playPrevious envT true ⟨some 3⟩ s5).1.position = 5000 := by decide

/-- C5 amended: `playPrevious` on an empty playlist is a no-op; with position
above 3000 ms it leaves the index unchanged and issues a seek-to-0 directive
exactly when a live engine handle exists (with no handle nothing happens, the
position is not reset); with position at most 3000 ms and a successful load
it moves the index to `(currentIndex + length - 1) % length`. -/
theorem playPrevious_characterization (env : Env) (m : Bool) (fx : LoadFx)
    (h h2 : Nat) (s : AppState) :
    (s.playlist = [] → playPrevious env m fx s = (s, [])) ∧
    (s.playlist ≠ [] → 3000 < s.position → s.sound = some h →
      playPrevious env m fx s = (s, [Effect.engineSeek 0])) ∧
    (s.playlist ≠ [] → 3000 < s.position → s.sound = none →
      playPrevious env m fx s = (s, [])) ∧
    (s.playlist ≠ [] → s.position ≤ 3000 → s.currentSongIndex < s.playlist.length →
      (∀ song ∈ s.playlist, env.existsFile song.uri = true) →
      (playPrevious env true ⟨some h2⟩ s).1.currentSongIndex =
        (s.currentSongIndex + s.playlist.length - 1) % s.playlist.length ∧
      (playPrevious env true ⟨some h2⟩ s).1.sound = some h2) := by
  refine ⟨?_, ?_, ?_, ?_⟩
  · intro he
    simp [playPrevious, he]
  · intro hne hpos hsnd
    have hn : 0 < s.playlist.length := List.length_pos.mpr hne
    rw [playPrevious, if_neg (Nat.pos_iff_ne_zero.mp hn), if_pos hpos,
      seekToPosition, hsnd]
  · intro hne hpos hsnd
    have hn : 0 < s.playlist.length := List.length_pos.mpr hne
    rw [playPrevious, if_neg (Nat.pos_iff_ne_zero.mp hn), if_pos hpos,
      seekToPosition, hsnd]
  · intro hne hp hi hex
    have hn : 0 < s.playlist.length := List.length_pos.mpr hne
    rw [playPrevious_step env h2 s hne hp hi hex]
    exact ⟨prevIdx_eq_mod s.playlist.length s.currentSongIndex hn hi, rfl⟩

theorem playPrevious_characterization_witness :
    playPrevious envT true ⟨some 3⟩
      { sound := some 8, playlist := [⟨1, "a", "file:///docs/music/a", none⟩],
        currentSongIndex := 0, isPlaying := true, duration := 9000,
        position := 5000, isLoading := false } =
      ({ sound := some 8, playlist := [⟨1, "a", "file:///docs/music/a", none⟩],
         currentSongIndex := 0, isPlaying := true, duration := 9000,
         position := 5000, isLoading := false }, [Effect.engineSeek 0]) :=
  (playPrevious_characterization envT true ⟨some 3⟩ 8 3
    { sound := some 8, playlist := [⟨1, "a", "file:///docs/music/a", none⟩],
      currentSongIndex := 0, isPlaying := true, duration := 9000,
      position := 5000, isLoading := false }).2.1
    (by decide) (by decide) rfl

/-- C7: with every load succeeding, composing `playNext` `length` times over a
non-empty playlist returns the current index to its original value, composing
`playPrevious` `length` times with the position at or below the 3000 ms
threshold likewise returns to the original index, and `playNext` on an empty
playlist is a no-op. -/
theorem next_previous_cycle (env : Env) (h : Nat) (s : AppState)
    (hne : s.playlist ≠ [])
    (hex : ∀ song ∈ s.playlist, env.existsFile song.uri = true)
    (hi : s.currentSongIndex < s.playlist.length)
    (hp : s.position ≤ 3000) :
    ((fun st => (playNext env true ⟨some h⟩ st).1)^[s.playlist.length] s).currentSongIndex
      = s.currentSongIndex ∧
    ((fun st => (playPrevious env true ⟨some h⟩ st).1)^[s.playlist.length] s).currentSongIndex
      = s.currentSongIndex ∧
    (∀ t : AppState, t.playlist = [] → playNext env true ⟨some h⟩ t = (t, [])) := by
  have hn : 0 < s.playlist.length := List.length_pos.mpr hne
  obtain ⟨k, hk⟩ : ∃ k, s.playlist.length = k + 1 := ⟨s.playlist.length - 1, by omega⟩
  refine ⟨?_, ?_, ?_⟩
  · rw [hk, playNext_iterate env h s hne hex k, ← hk]
    show (s.currentSongIndex + s.playlist.length) % s.playlist.length = s.currentSongIndex
    rw [Nat.add_mod_right s.currentSongIndex s.playlist.length]
    exact Nat.mod_eq_of_lt hi
  · rw [hk, playPrevious_iterate env h s hne hp hi hex k, ← hk]
    show (s.currentSongIndex + s.playlist.length * (s.playlist.length - 1)) % s.playlist.length
      = s.currentSongIndex
    have h5 : s.currentSongIndex + s.playlist.length * (s.playlist.length - 1) =
        s.currentSongIndex + (s.playlist.length - 1) * s.playlist.length := by
      rw [Nat.mul_comm]
    rw [h5, Nat.add_mul_mod_self_right]
    exact Nat.mod_eq_of_lt hi
  · intro t ht
    simp [playNext, ht]

theorem next_previous_cycle_witness :
    ((fun st => (playNext envT true ⟨some 4⟩ st).1)^[s7.playlist.length] s7).currentSongIndex
      = s7.currentSongIndex ∧
    ((fun st => (playPrevious envT true ⟨some 4⟩ st).1)^[s7.playlist.length] s7).currentSongIndex
      = s7.currentSongIndex :=
  ⟨(next_previous_cycle envT 4 s7 (by decide) (by decide) (by decide) (by decide)).1,
   (next_previous_cycle envT 4 s7 (by decide) (by decide) (by decide) (by decide)).2.1⟩

theorem importLoop_eq (now : Nat) (ok : Nat → Bool) (assets : List Asset) (i : Nat) :
    importLoop now ok assets i =
      ((List.enumFrom i assets).filter fun p => ok p.1).map fun p => mkSong now p.1 p.2 := by
  induction assets generalizing i with
  | nil => rfl
  | cons a rest ih =>
    rw [importLoop]
    cases hok : ok i with
    | true => simp [List.filter_cons, hok, ih]
    | false => simp [List.filter_cons, hok, ih]

theorem importLoop_length (now : Nat) (ok : Nat → Bool) (assets : List Asset) (i : Nat) :
    (importLoop now ok assets i).length
      + ((List.range' i assets.length).filter fun j => !(ok j)).length = assets.length := by
  induction assets generalizing i with
  | nil => rfl
  | cons a rest ih =>
    rw [importLoop]
    rw [List.length_cons, List.range'_succ, List.filter_cons]
    have := ih (i + 1)
    cases hok : ok i with
    | true => simp [hok]; omega
    | false => simp [hok]; omega

theorem importLoop_all_fail (now : Nat) (ok : Nat → Bool) (assets : List Asset) (i : Nat)
    (hall : ∀ j, i ≤ j → j < i + assets.length → ok j = false) :
    importLoop now ok assets i = [] := by
  induction assets generalizing i with
  | nil => rfl
  | cons a rest ih =>
    rw [importLoop]
    rw [hall i (Nat.le_refl i) (by simp only [List.length_cons]; omega)]
    exact ih (i + 1)
      (fun j h1 h2 => hall j (by omega) (by simp only [List.length_cons]; omega))

/-- C8 counterexample: the claim quantifies over every batch of N picked
files with exactly one failed copy; at N = 1 the single file's copy fails,
the loop yields no successes, and the code then skips the save and the
success report entirely: no "0 songs added" alert is shown and nothing is
persisted, contradicting the claimed unconditional persist and N-1 report. -/
theorem import_single_failure_counterexample :
    pickMusicFiles envT 100 (fun _ => false)
      (some [⟨"file:///tmp/a.mp3", "a.mp3"⟩]) false sEmpty wEmpty
      = (sEmpty, wEmpty, []) ∧
    Effect.alert (AlertKind.successAdded 0) ∉
      (pickMusicFiles envT 100 (fun _ => false)
        (some [⟨"file:///tmp/a.mp3", "a.mp3"⟩]) false sEmpty wEmpty).2.2 := by decide

/-- C8 amended: for every batch of at least two picked files in which exactly
one copy fails (and the persist succeeds), the playlist grows by exactly N-1
entries — the successful copies, appended in pick order — the grown list is
persisted, and the reported success count is N-1; the lone failure does not
abort the remaining imports.  (For N = 1 the batch degenerates to the
all-fail case: nothing is persisted and no count is reported.) -/
theorem import_single_failure_characterization (env : Env) (now : Nat)
    (copyOk : Nat → Bool) (assets : List Asset) (s : AppState) (w : World)
    (hN : 2 ≤ assets.length)
    (hone : ((List.range assets.length).filter fun j => !(copyOk j)).length = 1) :
    (pickMusicFiles env now copyOk (some assets) false s w).1.playlist
      = s.playlist ++ importLoop now copyOk assets 0 ∧
    (importLoop now copyOk assets 0).length = assets.length - 1 ∧
    importLoop now copyOk assets 0 =
      ((List.enumFrom 0 assets).filter fun p => copyOk p.1).map
        (fun p => mkSong now p.1 p.2) ∧
    (pickMusicFiles env now copyOk (some assets) false s w).2.1.store
      = some (env.serialize (s.playlist ++ importLoop now copyOk assets 0)) ∧
    (pickMusicFiles env now copyOk (some assets) false s w).2.2
      = [Effect.alert (AlertKind.successAdded (assets.length - 1))] := by
  have hlen : (importLoop now copyOk assets 0).length = assets.length - 1 := by
    have h1 := importLoop_length now copyOk assets 0
    rw [List.range_eq_range'] at hone
    omega
  have hpos : 0 < (importLoop now copyOk assets 0).length := by omega
  have hA : 0 < assets.length := by omega
  have h1A : 1 < assets.length := by omega
  refine ⟨?_, hlen, importLoop_eq now copyOk assets 0, ?_, ?_⟩ <;>
    simp [pickMusicFiles, savePlaylist, hA, hpos, hlen, h1A]

theorem import_single_failure_characterization_witness :
    (pickMusicFiles envT 100 (fun j => j != 1)
      (some [⟨"file:///tmp/a.mp3", "a.mp3"⟩, ⟨"file:///tmp/b.mp3", "b.mp3"⟩,
             ⟨"file:///tmp/c.mp3", "c.mp3"⟩]) false sEmpty wEmpty).1.playlist
      = [] ++ importLoop 100 (fun j => j != 1)
          [⟨"file:///tmp/a.mp3", "a.mp3"⟩, ⟨"file:///tmp/b.mp3", "b.mp3"⟩,
           ⟨"file:///tmp/c.mp3", "c.mp3"⟩] 0 ∧
    (importLoop 100 (fun j => j != 1)
      [⟨"file:///tmp/a.mp3", "a.mp3"⟩, ⟨"file:///tmp/b.mp3", "b.mp3"⟩,
       ⟨"file:///tmp/c.mp3", "c.mp3"⟩] 0).length = 2 :=
  ⟨(import_single_failure_characterization envT 100 (fun j => j != 1) _ sEmpty wEmpty
      (by decide) (by decide)).1,
   (import_single_failure_characterization envT 100 (fun j => j != 1) _ sEmpty wEmpty
      (by decide) (by decide)).2.1⟩

/-- C10: when every copy in the batch fails, `pickMusicFiles` leaves the
playlist and the durable store untouched and reports no success; moreover for
any copy-outcome profile, the store is written only when at least one file
imported successfully. -/
theorem import_all_fail_frame (env : Env) (now : Nat) (copyOk : Nat → Bool)
    (assets : List Asset) (sf : Bool) (s : AppState) (w : World)
    (hall : ∀ j, j < assets.length → copyOk j = false) :
    pickMusicFiles env now copyOk (some assets) sf s w = (s, w, []) ∧
    (∀ ok2 : Nat → Bool,
      (pickMusicFiles env now ok2 (some assets) false s w).2.1.store ≠ w.store →
      importLoop now ok2 assets 0 ≠ []) := by
  constructor
  · have hz : importLoop now copyOk assets 0 = [] :=
      importLoop_all_fail now copyOk assets 0 (fun j h1 h2 => hall j (by omega))
    by_cases hA : 0 < assets.length
    · simp [pickMusicFiles, hA, hz]
    · simp [pickMusicFiles, hA]
  · intro ok2 hstore hz
    apply hstore
    by_cases hA : 0 < assets.length
    · simp [pickMusicFiles, hA, hz]
    · simp [pickMusicFiles, hA]

theorem import_all_fail_frame_witness :
    pickMusicFiles envT 100 (fun _ => false)
      (some [⟨"file:///tmp/b.mp3", "b.mp3"⟩, ⟨"file:///tmp/c.mp3", "c.mp3"⟩])
      false sEmpty wEmpty = (sEmpty, wEmpty, []) :=
  (import_all_fail_frame envT 100 (fun _ => false) _ false sEmpty wEmpty
    (by decide)).1

/-- C9 counterexample: the empty string is a persisted blob that
`JSON.parse` rejects, yet the `if (saved && isMounted.current)` truthiness
guard skips it silently: the stored key is left in place (not reset) and no
Corrupted condition is signaled, so the claim is false for that blob. -/
theorem loadPlaylist_corrupted_counterexample :
    env9.parse "" = none ∧
    loadPlaylist env9 true false sEmpty { store := some "", dir := none }
      = (sEmpty, { store := some "", dir := none }, []) := by decide

/-- C9 amended: for every *non-empty* unparsable stored blob, `loadPlaylist`
takes the catch path: the stored key is removed, a user-visible
corrupted-and-reset alert is raised, and the in-memory playlist is left at
its startup value — empty — so the load yields an empty playlist.  (The
empty-string blob is skipped by the truthiness guard and left in place.) -/
theorem loadPlaylist_corrupted (env : Env) (sf : Bool) (s : AppState) (w : World)
    (blob : String) (hstore : w.store = some blob) (hblob : blob ≠ "")
    (hparse : env.parse blob = none) (hstart : s.playlist = []) :
    loadPlaylist env true sf s w
      = (s, { w with store := none }, [Effect.alert AlertKind.corrupted]) ∧
    (loadPlaylist env true sf s w).1.playlist = [] := by
  have h1 : loadPlaylist env true sf s w
      = (s, { w with store := none }, [Effect.alert AlertKind.corrupted]) := by
    simp [loadPlaylist, hstore, hblob, hparse]
  exact ⟨h1, by rw [h1]; exact hstart⟩

theorem loadPlaylist_corrupted_witness :
    loadPlaylist env9 true false sEmpty { store := some "garbage", dir := none }
      = (sEmpty, { store := none, dir := none }, [Effect.alert AlertKind.corrupted]) :=
  (loadPlaylist_corrupted env9 false sEmpty { store := some "garbage", dir := none }
    "garbage" rfl (by decide) (by decide) rfl).1

/-- C1 counterexample: playlist `[a(id 1), b(id 2)]`, current index 1 (track
b active on handle 7).  Removing id 1 — an entry *before* the current one —
shrinks the playlist to length 1 but leaves the current index at 1, an
out-of-range index: the code re-clamps only when the removed entry sits at
the current index and a live handle exists, so the claimed always-valid-index
invariant is false. -/
theorem removeSong_clamp_counterexample :
    (removeSong envT 1 false false s1rm wEmpty).1.playlist.length = 1 ∧
    (removeSong envT 1 false false s1rm wEmpty).1.currentSongIndex = 1 ∧
    ¬ ((removeSong envT 1 false false s1rm wEmpty).1.currentSongIndex
        < (removeSong envT 1 false false s1rm wEmpty).1.playlist.length) := by decide

/-- C1 amended: `removeSong` always installs the filtered playlist, but
re-clamps the current index only when the removed entry's original position
equals the current index, a live handle exists and its release does not
throw: then, for a non-empty remainder, the index becomes
`min(previousIndex, newLength-1)` (hence valid) with the handle released and
playback stopped, and for an emptied playlist the index is left unchanged.
In every other case — removal of a different entry, no live handle, or a
throwing release — the index is left unchanged and may exceed the new
length. -/
theorem removeSong_index_characterization (env : Env) (id : Nat) (sf : Bool)
    (s : AppState) (w : World) (h : Nat) :
    ((removeSong env id sf false s w).1.playlist
      = s.playlist.filter fun song => song.id != id) ∧
    (s.playlist.findIdx? (fun song => song.id == id) = some s.currentSongIndex →
      s.sound = some h →
      (s.playlist.filter fun song => song.id != id) ≠ [] →
      (removeSong env id sf false s w).1.currentSongIndex
        = min s.currentSongIndex ((s.playlist.filter fun song => song.id != id).length - 1) ∧
      (removeSong env id sf false s w).1.currentSongIndex
        < (s.playlist.filter fun song => song.id != id).length ∧
      (removeSong env id sf false s w).1.sound = none ∧
      (removeSong env id sf false s w).1.isPlaying = false) ∧
    (s.playlist.findIdx? (fun song => song.id == id) = some s.currentSongIndex →
      s.sound = some h →
      (s.playlist.filter fun song => song.id != id) = [] →
      (removeSong env id sf false s w).1.currentSongIndex = s.currentSongIndex) ∧
    (s.playlist.findIdx? (fun song => song.id == id) ≠ some s.currentSongIndex →
      (removeSong env id sf false s w).1.currentSongIndex = s.currentSongIndex) ∧
    (s.sound = none →
      (removeSong env id sf false s w).1.currentSongIndex = s.currentSongIndex) ∧
    ((removeSong env id sf true s w).1.currentSongIndex = s.currentSongIndex) := by
  refine ⟨?_, ?_, ?_, ?_, ?_, ?_⟩
  · rcases hf : s.playlist.findIdx? (fun song => song.id == id) with _ | ri
    · rcases hs : s.sound with _ | h0 <;> simp [removeSong, hf, hs]
    · rcases hs : s.sound with _ | h0
      · simp [removeSong, hf, hs]
      · by_cases hri : ri = s.currentSongIndex
        · by_cases hLen : 0 < (s.playlist.filter fun song => song.id != id).length <;>
            simp [removeSong, hf, hs, hri, hLen]
        · simp [removeSong, hf, hs, hri]
  · intro hfi hsnd hne
    have hLen : 0 < (s.playlist.filter fun song => song.id != id).length :=
      List.length_pos.mpr hne
    rw [removeSong, hfi, hsnd]
    simp [hLen]
  · intro hfi hsnd hemp
    have hLen : ¬ 0 < (s.playlist.filter fun song => song.id != id).length := by
      rw [hemp]
      simp
    rw [removeSong, hfi, hsnd]
    simp [hLen]
  · intro hfi
    rcases hf : s.playlist.findIdx? (fun song => song.id == id) with _ | ri
    · rcases hs : s.sound with _ | h0 <;> simp [removeSong, hf, hs]
    · rcases hs : s.sound with _ | h0
      · simp [removeSong, hf, hs]
      · have hri : ¬ ri = s.currentSongIndex := fun he => hfi (by rw [hf, he])
        simp [removeSong, hf, hs, hri]
  · intro hsnd
    rcases hf : s.playlist.findIdx? (fun song => song.id == id) with _ | ri <;>
      simp [removeSong, hf, hsnd]
  · rcases hf : s.playlist.findIdx? (fun song => song.id == id) with _ | ri
    · rcases hs : s.sound with _ | h0 <;> simp [removeSong, hf, hs]
    · rcases hs : s.sound with _ | h0
      · simp [removeSong, hf, hs]
      · by_cases hri : ri = s.currentSongIndex <;> simp [removeSong, hf, hs, hri]

theorem removeSong_index_characterization_witness :
    (removeSong envT 2 false false s1rm wEmpty).1.currentSongIndex
      = min s1rm.currentSongIndex
          ((s1rm.playlist.filter fun song => song.id != 2).length - 1) ∧
    (removeSong envT 2 false false s1rm wEmpty).1.currentSongIndex
      < (s1rm.playlist.filter fun song => song.id != 2).length :=
  ⟨((removeSong_index_characterization envT 2 false s1rm wEmpty 7).2.1
      (by decide) (by decide) (by decide)).1,
   ((removeSong_index_characterization envT 2 false s1rm wEmpty 7).2.1
      (by decide) (by decide) (by decide)).2.1⟩

/-- C2 counterexample: two concrete refutations of the claim.  First, from a
state whose managed directory does not exist, a fully successful ClearAll
still leaves the directory absent (the delete+recreate is guarded by a
directory-exists check), so "the managed directory exists and is empty"
fails for that starting state.  Second, when releasing the engine handle
throws, the single try-block jumps to the catch: the directory clear and the
catalog reset are skipped entirely, so "all three steps are attempted" is
also false. -/
theorem clearPlaylist_counterexample :
    ((clearPlaylist ⟨false, false, false, false⟩ sEmpty wEmpty).2.1.dir = none ∧
      Effect.alert AlertKind.clearSuccess ∈
        (clearPlaylist ⟨false, false, false, false⟩ sEmpty wEmpty).2.2) ∧
    (clearPlaylist ⟨true, false, false, false⟩ sClear
        { store := some "blob", dir := some ["f"] } =
      (sClear, { store := some "blob", dir := some ["f"] },
        [Effect.engineStopUnload 1, Effect.alert AlertKind.clearFailed])) := by decide

/-- C2 amended: when every step succeeds, ClearAll empties the catalog,
resets the index to 0, stops playback, releases any held handle, removes the
stored key, reports success, and recreates the managed directory empty when
it existed beforehand (an absent directory stays absent); the three steps run
in a single guarded sequence, so a failing handle release reports an error
and skips the directory clear and the catalog reset. -/
theorem clearPlaylist_characterization (s : AppState) (w : World) (h : Nat) :
    (clearPlaylist ⟨false, false, false, false⟩ s w).1
      = { s with playlist := [], currentSongIndex := 0, isPlaying := false,
                 sound := none } ∧
    (clearPlaylist ⟨false, false, false, false⟩ s w).2.1
      = { w with store := none, dir := w.dir.map fun _ => [] } ∧
    (clearPlaylist ⟨false, false, false, false⟩ s w).2.2
      = (match s.sound with
         | some h0 => [Effect.engineStopUnload h0]
         | none => []) ++ [Effect.alert AlertKind.clearSuccess] ∧
    (s.sound = some h →
      clearPlaylist ⟨true, false, false, false⟩ s w
        = (s, w, [Effect.engineStopUnload h, Effect.alert AlertKind.clearFailed])) := by
  obtain ⟨snd, pl, idx, ply, dur, pos, ld⟩ := s
  obtain ⟨store, dir⟩ := w
  refine ⟨?_, ?_, ?_, ?_⟩
  · cases snd <;> cases dir <;> rfl
  · cases snd <;> cases dir <;> rfl
  · cases snd <;> cases dir <;> rfl
  · intro hsnd
    cases snd with
    | none => exact absurd hsnd (by simp)
    | some h0 =>
      have : h0 = h := by
        simpa using hsnd
      subst this
      rfl

theorem clearPlaylist_characterization_witness :
    clearPlaylist ⟨true, false, false, false⟩ sClear wEmpty
      = (sClear, wEmpty,
          [Effect.engineStopUnload 1, Effect.alert AlertKind.clearFailed]) :=
  (clearPlaylist_characterization sClear wEmpty 1).2.2.2 rfl

end MusicPlayer
